import Mathlib

/-!
Verification of the Money_Tracker debt/transaction ledger (src/app.py).

Shallow embedding conventions:
- SQLAlchemy rows become Lean structures; the database session becomes an
  explicit `Store` carrying the three tables plus autoincrement counters.
- Python floats (the `amount` column) are modelled as `ℚ`.
- `datetime` timestamps are modelled as `ℕ`, with `datetime.min` mapped to `0`
  (every real `utcnow` timestamp is strictly later than `datetime.min`).
- An HTTP form field is `Option` of its parsed value: `none` models a missing
  or empty field.  The amount field is `Option (Option ℚ)`: the outer `none`
  models a missing/empty field, `some none` models a present but non-numeric
  string (where Python `float(...)` raises `ValueError`), `some (some q)` a
  parsed numeric value.
- Each `db.session.commit()` appends a snapshot of the store to a `commits`
  trace, so durability/atomicity questions are about that trace.
-/

namespace MoneyTracker

/-- Row of the `Person` table (src/app.py lines 44-48). -/
structure Person where
  id : Nat
  name : String
  user_id : Nat
deriving DecidableEq, Repr

/-- Row of the `Debt` table (src/app.py lines 50-55).  `status` defaults to
`"active"` at construction. -/
structure Debt where
  id : Nat
  direction : String
  status : String
  person_id : Nat
deriving DecidableEq, Repr

/-- Row of the `Transaction` table (src/app.py lines 61-67). -/
structure Transaction where
  id : Nat
  amount : ℚ
  type : String
  description : String
  date : Nat
  debt_id : Nat
deriving DecidableEq, Repr

/-- The persistent store: the three tables (in insertion order, which is the
order `.first()` and unordered queries see) plus autoincrement counters for
primary keys. -/
structure Store where
  people : List Person
  debts : List Debt
  transactions : List Transaction
  next_person_id : Nat
  next_debt_id : Nat
  next_transaction_id : Nat
deriving DecidableEq, Repr

/-- The `transactions` relationship of a `Debt`: all rows of the
`Transaction` table whose `debt_id` foreign key references it. -/
def transactionsOf (s : Store) (debtId : Nat) : List Transaction :=
  s.transactions.filter (fun t => t.debt_id == debtId)

/-- `Debt.balance` (src/app.py lines 57-59):
`sum(t.amount for t in self.transactions if t.type == 'loan')
 - sum(t.amount for t in self.transactions if t.type == 'payment')`. -/
def balance (ts : List Transaction) : ℚ :=
  ((ts.filter (fun t => t.type == "loan")).map (fun t => t.amount)).sum -
    ((ts.filter (fun t => t.type == "payment")).map (fun t => t.amount)).sum

/-- The balance of a debt row inside a store. -/
def debtBalance (s : Store) (d : Debt) : ℚ :=
  balance (transactionsOf s d.id)

/-- The per-transaction contribution to a balance as the spec words it:
a `loan` adds its amount, a `payment` subtracts it, and any unrecognized
kind contributes zero. -/
def specContribution (t : Transaction) : ℚ :=
  if t.type = "loan" then t.amount
  else if t.type = "payment" then -t.amount
  else 0

/-- Outcome tag of the `add_transaction` route (src/app.py lines 150-185). -/
inductive AddTxResult where
  | missingFields
  | forbidden
  | invalidAmount
  | integrityError
  | success (debtId : Nat)
deriving DecidableEq, Repr

/-- Result of `add_transaction`: the flash/abort outcome, the final store, and
the trace of store snapshots taken at each `db.session.commit()`. -/
structure AddTxOutcome where
  result : AddTxResult
  store : Store
  commits : List Store
deriving DecidableEq, Repr

/-- The `add_transaction` route (src/app.py lines 150-185), the spec's
`recordLoan`.  Checks, in source order: all three form fields present
(person_id, amount, stripped description); the person exists and is owned by
the current user (else `abort(403)`); the amount parses as a float and is
positive (else the `Invalid amount` flash).  Then looks up the active debt
for (person, direction), creating and committing a fresh one when absent,
and finally adds and commits a `loan` transaction.  A `none` direction field
models `request.form.get('direction')` returning `None`: the active-debt
lookup `direction IS NULL` can match no row (the column is `nullable=False`),
and committing `Debt(direction=None)` raises an integrity error, leaving the
store unchanged. -/
def add_transaction (s : Store) (uid : Nat) (person_id : Option Nat)
    (amount_field : Option (Option ℚ)) (description : String)
    (direction : Option String) (now : Nat) : AddTxOutcome :=
  match person_id, amount_field with
  | none, _ => ⟨.missingFields, s, []⟩
  | _, none => ⟨.missingFields, s, []⟩
  | some pid, some amount_parse =>
    if description = "" then ⟨.missingFields, s, []⟩
    else
      match s.people.find? (fun p => p.id == pid && p.user_id == uid) with
      | none => ⟨.forbidden, s, []⟩
      | some person =>
        match amount_parse with
        | none => ⟨.invalidAmount, s, []⟩
        | some amount =>
          if amount ≤ 0 then ⟨.invalidAmount, s, []⟩
          else
            match direction with
            | none => ⟨.integrityError, s, []⟩
            | some dir =>
              match s.debts.find? (fun d =>
                  d.person_id == person.id && d.direction == dir &&
                    d.status == "active") with
              | some debt =>
                let t : Transaction :=
                  ⟨s.next_transaction_id, amount, "loan", description, now,
                    debt.id⟩
                let s2 : Store :=
                  { s with transactions := s.transactions ++ [t],
                           next_transaction_id := s.next_transaction_id + 1 }
                ⟨.success debt.id, s2, [s2]⟩
              | none =>
                let debt : Debt := ⟨s.next_debt_id, dir, "active", person.id⟩
                let s1 : Store :=
                  { s with debts := s.debts ++ [debt],
                           next_debt_id := s.next_debt_id + 1 }
                let t : Transaction :=
                  ⟨s1.next_transaction_id, amount, "loan", description, now,
                    debt.id⟩
                let s2 : Store :=
                  { s1 with transactions := s1.transactions ++ [t],
                            next_transaction_id := s1.next_transaction_id + 1 }
                ⟨.success debt.id, s2, [s1, s2]⟩

/-- Outcome tag of the payment/settlement routes. -/
inductive OpResult where
  | notFound
  | forbidden
  | noop
  | ok
deriving DecidableEq, Repr

/-- Modelled from the spec: the body of the `make_payment` route (the spec's
`recordPayment`) is not under src/ (src/app.py line 188 carries only its
route decorator).  Per spec section 4.3: resolves the Debt by id, failing
with `NotFoundError` when absent; fails with `AuthorizationError` when the
Debt's Person does not belong to the requesting owner; clamps the amount to
`min(amount, balance(debt))`; when the clamped amount is `<= 0` creates no
Transaction (a no-op, not an error); otherwise appends a `payment`-kind
Transaction, and transitions the Debt's status to `settled` when the
recomputed balance is below `0.01`. -/
def make_payment (s : Store) (uid : Nat) (debtId : Nat) (amount : ℚ)
    (now : Nat) : OpResult × Store :=
  match s.debts.find? (fun d => d.id == debtId) with
  | none => (.notFound, s)
  | some debt =>
    match s.people.find? (fun p => p.id == debt.person_id) with
    | none => (.forbidden, s)
    | some person =>
      if person.user_id ≠ uid then (.forbidden, s)
      else
        let pay := min amount (debtBalance s debt)
        if pay ≤ 0 then (.noop, s)
        else
          let t : Transaction :=
            ⟨s.next_transaction_id, pay, "payment", "Payment", now, debt.id⟩
          let s1 : Store :=
            { s with transactions := s.transactions ++ [t],
                     next_transaction_id := s.next_transaction_id + 1 }
          if debtBalance s1 debt < 1 / 100 then
            (.ok,
              { s1 with debts := s1.debts.map (fun d =>
                  if d.id == debt.id then { d with status := "settled" }
                  else d) })
          else (.ok, s1)

/-- Modelled from the spec: the body of the `settle_debt` route (the spec's
`settleManually`) is not under src/ (src/app.py line 189 carries only its
route decorator).  Per spec section 4.3: resolves and authorizes like
`recordPayment`, then unconditionally sets the Debt's status to `settled`
regardless of remaining balance, altering no Transaction. -/
def settle_debt (s : Store) (uid : Nat) (debtId : Nat) : OpResult × Store :=
  match s.debts.find? (fun d => d.id == debtId) with
  | none => (.notFound, s)
  | some debt =>
    match s.people.find? (fun p => p.id == debt.person_id) with
    | none => (.forbidden, s)
    | some person =>
      if person.user_id ≠ uid then (.forbidden, s)
      else
        (.ok,
          { s with debts := s.debts.map (fun d =>
              if d.id == debt.id then { d with status := "settled" }
              else d) })

/-- Whether a debt's person belongs to the given user: the model of the
`Debt.query.join(Person).filter(Person.user_id == uid, ...)` join in the
`index` route. -/
def ownedBy (s : Store) (uid : Nat) (d : Debt) : Bool :=
  s.people.any (fun p => p.id == d.person_id && p.user_id == uid)

/-- The sort key of the `index` route (src/app.py line 133):
`max(t.date for t in d.transactions) if d.transactions else datetime.min`,
with `datetime.min` mapped to `0`. -/
def lastActivity (s : Store) (d : Debt) : Nat :=
  let ds := (transactionsOf s d.id).map (fun t => t.date)
  if ds.isEmpty then 0 else ds.foldr max 0

/-- The `index` route (src/app.py lines 123-134), the spec's
`listActiveDebts`: the active debts joined to people owned by the current
user, the `lent` and `borrowed` balance totals over that set, and the list
sorted by most-recent transaction date descending (Python's stable `sort`
with `reverse=True` is a stable descending sort, modelled by `mergeSort`
with the reversed key comparison). -/
def index (s : Store) (uid : Nat) : List Debt × ℚ × ℚ :=
  let active_debts := s.debts.filter
    (fun d => ownedBy s uid d && d.status == "active")
  let total_owed_to_me :=
    ((active_debts.filter (fun d => d.direction == "lent")).map
      (fun d => debtBalance s d)).sum
  let total_i_owe :=
    ((active_debts.filter (fun d => d.direction == "borrowed")).map
      (fun d => debtBalance s d)).sum
  (active_debts.mergeSort
      (fun a b => decide (lastActivity s b ≤ lastActivity s a)),
    total_owed_to_me, total_i_owe)

/-- The spec's invariant: at most one active debt per (person, direction)
pair. -/
def activeUnique (s : Store) : Prop :=
  ∀ d1 ∈ s.debts, ∀ d2 ∈ s.debts,
    d1.status = "active" → d2.status = "active" →
      d1.person_id = d2.person_id → d1.direction = d2.direction → d1 = d2

/-! ### Helper lemmas -/

theorem balance_nil : balance [] = 0 := by
  simp [balance]

theorem balance_cons (t : Transaction) (ts : List Transaction) :
    balance (t :: ts) = specContribution t + balance ts := by
  by_cases h1 : t.type = "loan"
  · simp [balance, specContribution, List.filter_cons, h1]
    ring
  · by_cases h2 : t.type = "payment"
    · simp [balance, specContribution, List.filter_cons, h1, h2]
      ring
    · simp [balance, specContribution, List.filter_cons, h1, h2]

theorem balance_append (xs ys : List Transaction) :
    balance (xs ++ ys) = balance xs + balance ys := by
  simp [balance, List.filter_append]
  ring

/-- The balance of a debt depends only on the transaction table. -/
theorem debtBalance_congr (s1 s2 : Store) (d : Debt)
    (h : s1.transactions = s2.transactions) :
    debtBalance s1 d = debtBalance s2 d := by
  simp [debtBalance, transactionsOf, h]

/-! ### C1 -/

/-- C1: for every debt, `balance` equals the sum of the amounts of its
`loan`-kind transactions minus the sum of the amounts of its `payment`-kind
transactions; any transaction of an unrecognized kind contributes zero.
Stated as: the code's filter-and-subtract computation equals the sum of the
spec's per-transaction contributions (loan: `+amount`, payment: `-amount`,
anything else: `0`). -/
theorem balance_eq_sum_specContribution (ts : List Transaction) :
    balance ts = (ts.map specContribution).sum := by
  induction ts with
  | nil => simp [balance]
  | cons t ts ih =>
    rw [balance_cons, List.map_cons, List.sum_cons, ih]

/-! ### Concrete data used by witnesses -/

/-- A small concrete store: Alice belongs to user 1, Bob to user 2; each has
one active `lent` debt; Alice's debt carries a single 100-unit loan. -/
def storeW : Store :=
  ⟨[⟨1, "Alice", 1⟩, ⟨2, "Bob", 2⟩],
   [⟨1, "lent", "active", 1⟩, ⟨2, "lent", "active", 2⟩],
   [⟨1, 100, "loan", "dinner", 5, 1⟩],
   3, 3, 2⟩

/-- Alice's debt row in `storeW`. -/
def d1W : Debt := ⟨1, "lent", "active", 1⟩

/-- Alice's person row in `storeW`. -/
def p1W : Person := ⟨1, "Alice", 1⟩

/-! ### C2 -/

/-- C2: `recordPayment` clamps the payment to `min(amount, balance)`:
for every payment amount `0 < p ≤ balance` the balance decreases by exactly
`p`; for `p > balance` the outcome is identical to paying exactly `balance`
(so a payment never drives the balance negative); and when the clamped
amount is `≤ 0`, no Transaction is created and no error is raised (the store
is returned unchanged with a no-op result). -/
theorem make_payment_clamps (s : Store) (uid debtId : Nat) (p : ℚ)
    (now : Nat) (debt : Debt) (person : Person)
    (hd : s.debts.find? (fun d => d.id == debtId) = some debt)
    (hp : s.people.find? (fun q => q.id == debt.person_id) = some person)
    (hu : person.user_id = uid) :
    (0 < p → p ≤ debtBalance s debt →
      debtBalance (make_payment s uid debtId p now).2 debt =
        debtBalance s debt - p) ∧
    (debtBalance s debt < p →
      make_payment s uid debtId p now =
        make_payment s uid debtId (debtBalance s debt) now) ∧
    (min p (debtBalance s debt) ≤ 0 →
      make_payment s uid debtId p now = (.noop, s)) := by
  refine ⟨?_, ?_, ?_⟩
  · intro hp0 hple
    have hmin : min p (debtBalance s debt) = p := min_eq_left hple
    have hnle : ¬ p ≤ 0 := not_le.mpr hp0
    simp only [make_payment, hd, hp, hu, ne_eq, not_true_eq_false, if_false,
      ite_false, hmin, hnle, if_neg hnle]
    have hbal : balance (s.transactions ++
        [⟨s.next_transaction_id, p, "payment", "Payment", now, debt.id⟩]) =
        balance s.transactions - p := by
      rw [balance_append, balance_cons, balance_nil, specContribution]
      simp
      ring
    split
    · simp [debtBalance, transactionsOf, List.filter_append, balance_append,
        balance_cons, balance_nil, specContribution]
      ring
    · simp [debtBalance, transactionsOf, List.filter_append, balance_append,
        balance_cons, balance_nil, specContribution]
      ring
  · intro hlt
    have hmin1 : min p (debtBalance s debt) = debtBalance s debt :=
      min_eq_right (le_of_lt hlt)
    have hmin2 : min (debtBalance s debt) (debtBalance s debt) =
        debtBalance s debt := min_self _
    simp only [make_payment, hd, hp, hu, hmin1, hmin2]
  · intro hle
    have hnu : ¬ person.user_id ≠ uid := by simp [hu]
    simp only [make_payment, hd, hp, if_neg hnu, if_pos hle]

/-- C2 witness: on the concrete store, paying 40 against Alice's 100-unit
debt reduces the balance by exactly 40. -/
theorem make_payment_clamps_witness :
    debtBalance (make_payment storeW 1 1 40 10).2 d1W =
      debtBalance storeW d1W - 40 :=
  (make_payment_clamps storeW 1 1 40 10 d1W p1W rfl rfl rfl).1
    (by norm_num)
    (by simp [debtBalance, storeW, d1W, transactionsOf, balance]; norm_num)

/-- The active-debt uniqueness invariant only depends on the debts table. -/
theorem activeUnique_congr (s1 s2 : Store) (h : s1.debts = s2.debts) :
    activeUnique s1 ↔ activeUnique s2 := by
  simp [activeUnique, h]

/-! ### C3 -/

/-- C3: `recordLoan` resolves to the already-existing active debt for
(person, direction) when one exists (the transaction succeeds against that
debt's id and no debt row is added), creates a fresh debt with status
`active` only when none exists, and preserves the invariant that at most one
active debt exists per (person, direction) pair.  Because the lookup is
restricted to `status == "active"`, a settled debt can never satisfy the
lookup, so a later loan for the same pair lands in the second conjunct and
creates a new debt instance. -/
theorem add_transaction_lookup_or_create (s : Store) (uid pid : Nat) (a : ℚ)
    (description dir : String) (now : Nat) (person : Person)
    (ha : 0 < a) (hdesc : description ≠ "")
    (hperson : s.people.find? (fun q => q.id == pid && q.user_id == uid) =
      some person) :
    (∀ d0, s.debts.find? (fun d => d.person_id == person.id &&
        d.direction == dir && d.status == "active") = some d0 →
      (add_transaction s uid (some pid) (some (some a)) description
          (some dir) now).result = .success d0.id ∧
      (add_transaction s uid (some pid) (some (some a)) description
          (some dir) now).store.debts = s.debts) ∧
    (s.debts.find? (fun d => d.person_id == person.id &&
        d.direction == dir && d.status == "active") = none →
      (add_transaction s uid (some pid) (some (some a)) description
          (some dir) now).store.debts =
        s.debts ++ [⟨s.next_debt_id, dir, "active", person.id⟩] ∧
      (add_transaction s uid (some pid) (some (some a)) description
          (some dir) now).result = .success s.next_debt_id) ∧
    (activeUnique s →
      activeUnique (add_transaction s uid (some pid) (some (some a))
          description (some dir) now).store) := by
  have hna : ¬ a ≤ 0 := not_le.mpr ha
  refine ⟨?_, ?_, ?_⟩
  · intro d0 hq
    simp [add_transaction, hperson, hq, hdesc, hna]
  · intro hq
    simp [add_transaction, hperson, hq, hdesc, hna]
  · intro hA
    match hq : s.debts.find? (fun d => d.person_id == person.id &&
        d.direction == dir && d.status == "active") with
    | some d0 =>
      have hdebts : (add_transaction s uid (some pid) (some (some a))
          description (some dir) now).store.debts = s.debts := by
        simp [add_transaction, hperson, hq, hdesc, hna]
      intro d1 h1 d2 h2
      rw [hdebts] at h1 h2
      exact hA d1 h1 d2 h2
    | none =>
      have hdebts : (add_transaction s uid (some pid) (some (some a))
          description (some dir) now).store.debts =
          s.debts ++ [⟨s.next_debt_id, dir, "active", person.id⟩] := by
        simp [add_transaction, hperson, hq, hdesc, hna]
      have hmiss : ∀ d ∈ s.debts,
          ¬(d.person_id = person.id ∧ d.direction = dir ∧
            d.status = "active") := by
        intro d hd
        have := List.find?_eq_none.mp hq d hd
        simpa using this
      intro d1 h1 d2 h2 hs1 hs2 hpid hdir
      rw [hdebts] at h1 h2
      rcases List.mem_append.mp h1 with h1 | h1 <;>
        rcases List.mem_append.mp h2 with h2 | h2
      · exact hA d1 h1 d2 h2 hs1 hs2 hpid hdir
      · exfalso
        have hd2 : d2 = ⟨s.next_debt_id, dir, "active", person.id⟩ := by
          simpa using h2
        exact hmiss d1 h1 ⟨by rw [hpid, hd2], by rw [hdir, hd2], hs1⟩
      · exfalso
        have hd1 : d1 = ⟨s.next_debt_id, dir, "active", person.id⟩ := by
          simpa using h1
        exact hmiss d2 h2 ⟨by rw [← hpid, hd1], by rw [← hdir, hd1], hs2⟩
      · have hd1 : d1 = ⟨s.next_debt_id, dir, "active", person.id⟩ := by
          simpa using h1
        have hd2 : d2 = ⟨s.next_debt_id, dir, "active", person.id⟩ := by
          simpa using h2
        rw [hd1, hd2]

/-- C3 witness: on the concrete store, recording a `borrowed` loan against
Alice (who only has an active `lent` debt) creates a fresh active debt for
the (Alice, borrowed) pair. -/
theorem add_transaction_lookup_or_create_witness :
    (add_transaction storeW 1 (some 1) (some (some 50)) "gift"
        (some "borrowed") 9).store.debts =
      storeW.debts ++ [⟨storeW.next_debt_id, "borrowed", "active", 1⟩] :=
  ((add_transaction_lookup_or_create storeW 1 1 50 "gift" "borrowed" 9 p1W
      (by norm_num) (by simp) rfl).2.1 rfl).1

/-- Helper: under the same resolution and authorization hypotheses, a
payment with a positive clamped amount appends exactly one payment
transaction row. -/
theorem make_payment_transactions (s : Store) (uid debtId : Nat) (p : ℚ)
    (now : Nat) (debt : Debt) (person : Person)
    (hd : s.debts.find? (fun d => d.id == debtId) = some debt)
    (hp : s.people.find? (fun q => q.id == debt.person_id) = some person)
    (hu : person.user_id = uid)
    (hpos : 0 < min p (debtBalance s debt)) :
    (make_payment s uid debtId p now).2.transactions =
      s.transactions ++ [⟨s.next_transaction_id, min p (debtBalance s debt),
        "payment", "Payment", now, debt.id⟩] := by
  have hnle : ¬ min p (debtBalance s debt) ≤ 0 := not_le.mpr hpos
  have hnu : ¬ person.user_id ≠ uid := by simp [hu]
  simp only [make_payment, hd, hp, if_neg hnu, if_neg hnle]
  split <;> rfl

/-! ### C4 -/

/-- C4: after `recordPayment` appends a payment transaction (the clamped
amount is positive), if the recomputed balance of the debt is below `0.01`
currency units then every row carrying the debt's id has status `settled`;
otherwise the debts table is untouched, so the debt remains `active`. -/
theorem make_payment_settles (s : Store) (uid debtId : Nat) (p : ℚ)
    (now : Nat) (debt : Debt) (person : Person)
    (hd : s.debts.find? (fun d => d.id == debtId) = some debt)
    (hp : s.people.find? (fun q => q.id == debt.person_id) = some person)
    (hu : person.user_id = uid)
    (hactive : debt.status = "active")
    (hpos : 0 < min p (debtBalance s debt)) :
    (make_payment s uid debtId p now).2.transactions =
      s.transactions ++ [⟨s.next_transaction_id, min p (debtBalance s debt),
        "payment", "Payment", now, debt.id⟩] ∧
    (debtBalance (make_payment s uid debtId p now).2 debt < 1 / 100 →
      ∀ d2 ∈ (make_payment s uid debtId p now).2.debts, d2.id = debt.id →
        d2.status = "settled") ∧
    (¬ debtBalance (make_payment s uid debtId p now).2 debt < 1 / 100 →
      (make_payment s uid debtId p now).2.debts = s.debts ∧
        debt.status = "active") := by
  have hnle : ¬ min p (debtBalance s debt) ≤ 0 := not_le.mpr hpos
  have hnu : ¬ person.user_id ≠ uid := by simp [hu]
  simp only [make_payment, hd, hp, if_neg hnu, if_neg hnle]
  split
  case isTrue hcond =>
    refine ⟨rfl, ?_, ?_⟩
    · intro _ d2 h2 hid
      simp only at h2
      rcases List.mem_map.mp h2 with ⟨d0, _, hd0⟩
      by_cases hdid : d0.id = debt.id
      · rw [← hd0]
        simp [hdid]
      · exfalso
        rw [← hd0] at hid
        simp [hdid] at hid
    · intro hnlt
      exfalso
      apply hnlt
      simpa [debtBalance, transactionsOf] using hcond
  case isFalse hcond =>
    refine ⟨rfl, ?_, fun _ => ⟨rfl, hactive⟩⟩
    intro hlt
    exfalso
    apply hcond
    simpa [debtBalance, transactionsOf] using hlt

/-- C4 witness: on the concrete store, a 1000-unit payment against Alice's
100-unit debt appends exactly one payment transaction carrying the clamped
amount. -/
theorem make_payment_settles_witness :
    (make_payment storeW 1 1 1000 11).2.transactions =
      storeW.transactions ++ [⟨storeW.next_transaction_id,
        min 1000 (debtBalance storeW d1W), "payment", "Payment", 11,
        d1W.id⟩] := by
  have hbal : debtBalance storeW d1W = 100 := by
    simp [debtBalance, storeW, d1W, transactionsOf, balance]
  have hpos : 0 < min (1000 : ℚ) (debtBalance storeW d1W) := by
    rw [hbal]
    norm_num
  exact (make_payment_settles storeW 1 1 1000 11 d1W p1W rfl rfl rfl rfl
      hpos).1

/-! ### C5 -/

/-- C5: every owner-scoped operation fails with the forbidden outcome
(`abort(403)` / `AuthorizationError`) and leaves the store untouched when
the target Person or Debt exists but is not (transitively) owned by the
requesting user: no mutation, no commit, no partial result, no silent
no-op.  For `add_transaction` the form fields must be present so that the
required-fields check does not fire first. -/
theorem cross_owner_forbidden (s : Store) (uid : Nat) :
    (∀ pid amount_parse description dir now,
      description ≠ "" →
      (∃ q ∈ s.people, q.id = pid) →
      (∀ q ∈ s.people, q.id = pid → q.user_id ≠ uid) →
      add_transaction s uid (some pid) (some amount_parse) description dir
        now = ⟨.forbidden, s, []⟩) ∧
    (∀ debtId amount now debt,
      s.debts.find? (fun d => d.id == debtId) = some debt →
      (∀ q ∈ s.people, q.id = debt.person_id → q.user_id ≠ uid) →
      make_payment s uid debtId amount now = (.forbidden, s)) ∧
    (∀ debtId debt,
      s.debts.find? (fun d => d.id == debtId) = some debt →
      (∀ q ∈ s.people, q.id = debt.person_id → q.user_id ≠ uid) →
      settle_debt s uid debtId = (.forbidden, s)) := by
  refine ⟨?_, ?_, ?_⟩
  · intro pid ap description dir now hdesc _ hnot
    have hnone : s.people.find?
        (fun q => q.id == pid && q.user_id == uid) = none := by
      rw [List.find?_eq_none]
      intro q hq
      simp only [Bool.and_eq_true, beq_iff_eq, not_and]
      exact fun hid => hnot q hq hid
    simp [add_transaction, hnone, hdesc]
  · intro debtId amount now debt hd hnot
    match hq : s.people.find? (fun q => q.id == debt.person_id) with
    | none => simp [make_payment, hd, hq]
    | some q =>
      have hmem := List.mem_of_find?_eq_some hq
      have hqid : q.id = debt.person_id := by
        simpa using List.find?_some hq
      have hne : q.user_id ≠ uid := hnot q hmem hqid
      simp [make_payment, hd, hq, hne]
  · intro debtId debt hd hnot
    match hq : s.people.find? (fun q => q.id == debt.person_id) with
    | none => simp [settle_debt, hd, hq]
    | some q =>
      have hmem := List.mem_of_find?_eq_some hq
      have hqid : q.id = debt.person_id := by
        simpa using List.find?_some hq
      have hne : q.user_id ≠ uid := hnot q hmem hqid
      simp [settle_debt, hd, hq, hne]

/-- C5 witness: user 1 attempting to record a loan against Bob (owned by
user 2) is rejected with the forbidden outcome and an unchanged store. -/
theorem cross_owner_forbidden_witness :
    add_transaction storeW 1 (some 2) (some (some 10)) "x" (some "lent") 3 =
      ⟨.forbidden, storeW, []⟩ :=
  (cross_owner_forbidden storeW 1).1 2 (some 10) "x" (some "lent") 3
    (by simp) (by decide) (by decide)

/-! ### C7 -/

/-- C7: `recordLoan` validates its amount once the request reaches the
amount check (fields present, person authorized): a non-numeric amount
(Python `float` raising `ValueError`) or an amount `≤ 0` fails with the
`Invalid amount` flash and creates no Debt and no Transaction (the store is
returned unchanged, with no commit); any amount `> 0` passes validation and
the operation succeeds. -/
theorem add_transaction_amount_validation (s : Store) (uid pid : Nat)
    (description : String) (now : Nat) (person : Person)
    (hdesc : description ≠ "")
    (hperson : s.people.find? (fun q => q.id == pid && q.user_id == uid) =
      some person) :
    (∀ dir, add_transaction s uid (some pid) (some none) description dir now
      = ⟨.invalidAmount, s, []⟩) ∧
    (∀ dir, ∀ a : ℚ, a ≤ 0 →
      add_transaction s uid (some pid) (some (some a)) description dir now
        = ⟨.invalidAmount, s, []⟩) ∧
    (∀ dirStr, ∀ a : ℚ, 0 < a → ∃ did,
      (add_transaction s uid (some pid) (some (some a)) description
          (some dirStr) now).result = .success did) := by
  refine ⟨?_, ?_, ?_⟩
  · intro dir
    simp [add_transaction, hperson, hdesc]
  · intro dir a hle
    simp [add_transaction, hperson, hdesc, hle]
  · intro dirStr a ha
    have hna : ¬ a ≤ 0 := not_le.mpr ha
    match hq : s.debts.find? (fun d => d.person_id == person.id &&
        d.direction == dirStr && d.status == "active") with
    | some d0 =>
      exact ⟨d0.id, by simp [add_transaction, hperson, hdesc, hna, hq]⟩
    | none =>
      exact ⟨s.next_debt_id,
        by simp [add_transaction, hperson, hdesc, hna, hq]⟩

/-- C7 witness: a loan of amount −5 for Alice is rejected as an invalid
amount and leaves the store unchanged. -/
theorem add_transaction_amount_validation_witness :
    add_transaction storeW 1 (some 1) (some (some (-5))) "x" (some "lent") 3
      = ⟨.invalidAmount, storeW, []⟩ :=
  (add_transaction_amount_validation storeW 1 1 "x" 3 p1W (by simp)
      rfl).2.1 (some "lent") (-5) (by norm_num)

/-! ### C8 -/

/-- C8: `settleManually` on a resolved, authorized debt reports success,
unconditionally marks every row carrying the debt's id as `settled` with no
hypothesis on the remaining balance, and changes nothing else: the
transaction table is untouched (no Transaction added, modified or removed),
every other debt row survives unchanged, and the people table is
untouched. -/
theorem settle_debt_spec (s : Store) (uid debtId : Nat) (debt : Debt)
    (person : Person)
    (hd : s.debts.find? (fun d => d.id == debtId) = some debt)
    (hp : s.people.find? (fun q => q.id == debt.person_id) = some person)
    (hu : person.user_id = uid) :
    (settle_debt s uid debtId).1 = .ok ∧
    (settle_debt s uid debtId).2.transactions = s.transactions ∧
    (∀ d2 ∈ (settle_debt s uid debtId).2.debts, d2.id = debt.id →
      d2.status = "settled") ∧
    (∀ d2 ∈ s.debts, d2.id ≠ debt.id →
      d2 ∈ (settle_debt s uid debtId).2.debts) ∧
    (settle_debt s uid debtId).2.people = s.people := by
  have hnu : ¬ person.user_id ≠ uid := by simp [hu]
  simp only [settle_debt, hd, hp, if_neg hnu]
  refine ⟨trivial, trivial, ?_, ?_, trivial⟩
  · intro d2 h2 hid
    rcases List.mem_map.mp h2 with ⟨d0, _, hd0⟩
    by_cases hdid : d0.id = debt.id
    · rw [← hd0]
      simp [hdid]
    · exfalso
      rw [← hd0] at hid
      simp [hdid] at hid
  · intro d2 h2 hne
    exact List.mem_map.mpr ⟨d2, h2, by simp [hne]⟩

/-- C8 witness: manually settling Alice's debt, whose balance is still 100,
leaves the transaction table unchanged. -/
theorem settle_debt_spec_witness :
    (settle_debt storeW 1 1).2.transactions = storeW.transactions :=
  (settle_debt_spec storeW 1 1 d1W p1W rfl rfl rfl).2.1

/-! ### C10 -/

/-- C10: `recordLoan` never validates the `direction` field: for an
arbitrary direction string supplied by the caller (not merely `lent` or
`borrowed`), a request that passes the field, ownership and amount checks
still succeeds, and the debt it resolves to (looked up or freshly created)
carries exactly that arbitrary string as its direction. -/
theorem add_transaction_any_direction (s : Store) (uid pid : Nat) (a : ℚ)
    (description dirStr : String) (now : Nat) (person : Person)
    (ha : 0 < a) (hdesc : description ≠ "")
    (hperson : s.people.find? (fun q => q.id == pid && q.user_id == uid) =
      some person) :
    ∃ did, (add_transaction s uid (some pid) (some (some a)) description
        (some dirStr) now).result = .success did ∧
      ∃ d ∈ (add_transaction s uid (some pid) (some (some a)) description
          (some dirStr) now).store.debts, d.id = did ∧
        d.direction = dirStr := by
  have hna : ¬ a ≤ 0 := not_le.mpr ha
  match hq : s.debts.find? (fun d => d.person_id == person.id &&
      d.direction == dirStr && d.status == "active") with
  | some d0 =>
    have hdebts : (add_transaction s uid (some pid) (some (some a))
        description (some dirStr) now).store.debts = s.debts := by
      simp [add_transaction, hperson, hdesc, hna, hq]
    have hdir : d0.direction = dirStr := by
      have := List.find?_some hq
      simp only [Bool.and_eq_true, beq_iff_eq] at this
      exact this.1.2
    refine ⟨d0.id, by simp [add_transaction, hperson, hdesc, hna, hq],
      d0, ?_, rfl, hdir⟩
    rw [hdebts]
    exact List.mem_of_find?_eq_some hq
  | none =>
    have hdebts : (add_transaction s uid (some pid) (some (some a))
        description (some dirStr) now).store.debts =
        s.debts ++ [⟨s.next_debt_id, dirStr, "active", person.id⟩] := by
      simp [add_transaction, hperson, hdesc, hna, hq]
    refine ⟨s.next_debt_id,
      by simp [add_transaction, hperson, hdesc, hna, hq],
      ⟨s.next_debt_id, dirStr, "active", person.id⟩, ?_, rfl, rfl⟩
    rw [hdebts]
    simp

/-- C10 witness: a loan for Alice with the unrecognized direction string
`"sideways"` succeeds and creates a debt whose direction is `"sideways"`. -/
theorem add_transaction_any_direction_witness :
    ∃ did, (add_transaction storeW 1 (some 1) (some (some 5)) "x"
        (some "sideways") 3).result = .success did ∧
      ∃ d ∈ (add_transaction storeW 1 (some 1) (some (some 5)) "x"
          (some "sideways") 3).store.debts, d.id = did ∧
        d.direction = "sideways" :=
  add_transaction_any_direction storeW 1 1 5 "x" "sideways" 3 p1W
    (by norm_num) (by simp) rfl

/-! ### C9 -/

/-- Helper: every element of a list of naturals is bounded by the
`foldr max 0` of the list. -/
theorem le_foldr_max (l : List Nat) (x : Nat) (hx : x ∈ l) :
    x ≤ l.foldr max 0 := by
  induction l with
  | nil => cases hx
  | cons y l ih =>
    rcases List.mem_cons.mp hx with h | h
    · rw [h]
      exact le_max_left _ _
    · exact le_trans (ih h) (le_max_right _ _)

/-- Helper: a debt with no transactions has the minimum sort key. -/
theorem lastActivity_eq_zero (s : Store) (d : Debt)
    (h : transactionsOf s d.id = []) : lastActivity s d = 0 := by
  simp [lastActivity, h]

/-- Helper: with strictly positive transaction dates, only a debt with no
transactions has the minimum sort key. -/
theorem lastActivity_pos (s : Store) (d : Debt)
    (hdates : ∀ t ∈ s.transactions, 0 < t.date)
    (h : transactionsOf s d.id ≠ []) : 0 < lastActivity s d := by
  rcases List.exists_mem_of_ne_nil _ h with ⟨t, ht⟩
  have htmem : t ∈ s.transactions := List.mem_of_mem_filter ht
  have hle : t.date ≤ ((transactionsOf s d.id).map (fun t => t.date)).foldr
      max 0 :=
    le_foldr_max _ _ (List.mem_map.mpr ⟨t, ht, rfl⟩)
  have hne : ¬ ((transactionsOf s d.id).map (fun t => t.date)).isEmpty := by
    simp [List.isEmpty_iff, h]
  calc 0 < t.date := hdates t htmem
    _ ≤ _ := hle
    _ = lastActivity s d := by
      rw [lastActivity]
      simp only [if_neg hne]

/-- C9: `listActiveDebts` (the `index` route) returns exactly the active
debts transitively owned by the requesting user (as a permutation of the
filtered debts table, with the membership characterization spelled out),
ordered by each debt's most-recent transaction date descending where a debt
with no transactions is keyed by the minimum timestamp — hence, as long as
every stored transaction date is positive (every real timestamp exceeds
`datetime.min`), debts with no transactions sort after debts that have
any — together with the sums of balances over the returned debts with
direction `lent` and direction `borrowed` respectively. -/
theorem index_spec (s : Store) (uid : Nat) :
    List.Perm (index s uid).1
      (s.debts.filter (fun d => ownedBy s uid d && d.status == "active")) ∧
    (∀ d, d ∈ (index s uid).1 ↔
      d ∈ s.debts ∧ d.status = "active" ∧
        ∃ q ∈ s.people, q.id = d.person_id ∧ q.user_id = uid) ∧
    (index s uid).1.Pairwise
      (fun a b => lastActivity s b ≤ lastActivity s a) ∧
    ((∀ t ∈ s.transactions, 0 < t.date) →
      (index s uid).1.Pairwise (fun a b =>
        transactionsOf s a.id = [] → transactionsOf s b.id = [])) ∧
    (index s uid).2.1 =
      (((index s uid).1.filter (fun d => d.direction == "lent")).map
        (fun d => debtBalance s d)).sum ∧
    (index s uid).2.2 =
      (((index s uid).1.filter (fun d => d.direction == "borrowed")).map
        (fun d => debtBalance s d)).sum := by
  have hperm : List.Perm (index s uid).1
      (s.debts.filter (fun d => ownedBy s uid d && d.status == "active")) :=
    List.mergeSort_perm _ _
  have hsorted : (index s uid).1.Pairwise
      (fun a b => lastActivity s b ≤ lastActivity s a) := by
    have h := @List.sorted_mergeSort Debt
      (fun a b => decide (lastActivity s b ≤ lastActivity s a))
      (fun a b c h1 h2 => by
        simp only [decide_eq_true_eq] at *
        omega)
      (fun a b => by
        simp only [Bool.or_eq_true, decide_eq_true_eq]
        omega)
      (s.debts.filter (fun d => ownedBy s uid d && d.status == "active"))
    exact h.imp (by simp)
  refine ⟨hperm, ?_, hsorted, ?_, ?_, ?_⟩
  · intro d
    rw [hperm.mem_iff]
    simp only [List.mem_filter, Bool.and_eq_true, beq_iff_eq, ownedBy,
      List.any_eq_true]
    constructor
    · rintro ⟨hmem, ⟨q, hq, hq1, hq2⟩, hst⟩
      exact ⟨hmem, hst, q, hq, hq1, hq2⟩
    · rintro ⟨hmem, hst, q, hq, hq1, hq2⟩
      exact ⟨hmem, ⟨q, hq, hq1, hq2⟩, hst⟩
  · intro hdates
    refine hsorted.imp ?_
    intro a b hab ha
    by_contra hb
    have h0 : lastActivity s a = 0 := lastActivity_eq_zero s a ha
    have hpos : 0 < lastActivity s b := lastActivity_pos s b hdates hb
    omega
  · have h2 : List.Perm
        (((index s uid).1.filter (fun d => d.direction == "lent")).map
          (fun d => debtBalance s d))
        (((s.debts.filter (fun d => ownedBy s uid d &&
            d.status == "active")).filter
          (fun d => d.direction == "lent")).map (fun d => debtBalance s d)) :=
      (hperm.filter _).map _
    rw [h2.sum_eq]
    rfl
  · have h2 : List.Perm
        (((index s uid).1.filter (fun d => d.direction == "borrowed")).map
          (fun d => debtBalance s d))
        (((s.debts.filter (fun d => ownedBy s uid d &&
            d.status == "active")).filter
          (fun d => d.direction == "borrowed")).map
            (fun d => debtBalance s d)) :=
      (hperm.filter _).map _
    rw [h2.sum_eq]
    rfl

/-- C9 witness: on the concrete store as seen by user 1, the returned
debts satisfy the no-transactions-sort-last pairwise property, instantiated
through the positivity of all stored transaction dates. -/
theorem index_spec_witness :
    (index storeW 1).1.Pairwise (fun a b =>
      transactionsOf storeW a.id = [] → transactionsOf storeW b.id = []) :=
  (index_spec storeW 1).2.2.2.1 (by decide)

/-! ### C6 -/

/-- A store holding only Alice (user 1) and nothing else, used to exhibit
the non-atomic commit sequence of `add_transaction`. -/
def storeC6 : Store := ⟨[⟨1, "Alice", 1⟩], [], [], 2, 1, 1⟩

/-- C6 counterexample: recording a loan for Alice on `storeC6` produces a
committed state (the first `db.session.commit()` at src/app.py line 180)
that contains a newly created debt — one whose id matches no debt of the
initial store — while no transaction referencing that debt exists yet.  So
the claim that no reachable committed state holds a newly created Debt
without its initiating Transaction is false on this input. -/
theorem add_transaction_commits_orphan_debt :
    ∃ c ∈ (add_transaction storeC6 1 (some 1) (some (some 100)) "dinner"
        (some "lent") 7).commits,
      ∃ d ∈ c.debts, (∀ d0 ∈ storeC6.debts, d0.id ≠ d.id) ∧
        ∀ t ∈ c.transactions, t.debt_id ≠ d.id := by
  decide

/-- C6 amended: `recordLoan` is not atomic when it creates a new debt;
instead it commits in two phases.  The commit trace has exactly two
entries: an intermediate committed state containing the new debt with no
transaction referencing it (under the store invariant that no existing
transaction already carries the about-to-be-issued debt id), and a final
committed state — equal to the returned store — containing both the new
debt and its initiating loan transaction.  Only on successful completion
are both present. -/
theorem add_transaction_two_phase_commit (s : Store) (uid pid : Nat) (a : ℚ)
    (description dir : String) (now : Nat) (person : Person)
    (ha : 0 < a) (hdesc : description ≠ "")
    (hperson : s.people.find? (fun q => q.id == pid && q.user_id == uid) =
      some person)
    (hnone : s.debts.find? (fun d => d.person_id == person.id &&
      d.direction == dir && d.status == "active") = none)
    (hfresh : ∀ t ∈ s.transactions, t.debt_id ≠ s.next_debt_id) :
    (add_transaction s uid (some pid) (some (some a)) description (some dir)
        now).commits.length = 2 ∧
    (add_transaction s uid (some pid) (some (some a)) description (some dir)
        now).commits.getLast? =
      some (add_transaction s uid (some pid) (some (some a)) description
        (some dir) now).store ∧
    (∃ c ∈ (add_transaction s uid (some pid) (some (some a)) description
        (some dir) now).commits,
      (∃ d ∈ c.debts, d.id = s.next_debt_id) ∧
        ∀ t ∈ c.transactions, t.debt_id ≠ s.next_debt_id) ∧
    (∃ d ∈ (add_transaction s uid (some pid) (some (some a)) description
        (some dir) now).store.debts, d.id = s.next_debt_id) ∧
    (∃ t ∈ (add_transaction s uid (some pid) (some (some a)) description
        (some dir) now).store.transactions,
      t.debt_id = s.next_debt_id) := by
  have hna : ¬ a ≤ 0 := not_le.mpr ha
  simp only [add_transaction, hperson, hnone, if_neg hdesc, if_neg hna]
  refine ⟨rfl, rfl, ?_, ?_, ?_⟩
  · refine ⟨_, List.mem_cons_self _ _,
      ⟨⟨s.next_debt_id, dir, "active", person.id⟩, ?_, rfl⟩, ?_⟩
    · simp
    · intro t ht
      exact hfresh t ht
  · exact ⟨⟨s.next_debt_id, dir, "active", person.id⟩, by simp, rfl⟩
  · exact ⟨⟨s.next_transaction_id, a, "loan", description, now,
      s.next_debt_id⟩, by simp, rfl⟩

/-- C6 amended witness: on `storeW`, recording a `borrowed` loan for Alice
creates a new debt; the commit trace contains a committed state holding
that debt with no transaction referencing it. -/
theorem add_transaction_two_phase_commit_witness :
    ∃ c ∈ (add_transaction storeW 1 (some 1) (some (some 50)) "gift"
        (some "borrowed") 9).commits,
      (∃ d ∈ c.debts, d.id = storeW.next_debt_id) ∧
        ∀ t ∈ c.transactions, t.debt_id ≠ storeW.next_debt_id :=
  (add_transaction_two_phase_commit storeW 1 1 50 "gift" "borrowed" 9 p1W
    (by norm_num) (by simp) rfl rfl (by decide)).2.2.1

end MoneyTracker
